import Mathlib

/-!
Shallow embedding of the trashlytics event-batching pipeline.

The repository ships two variants of the pipeline:
* an Effect-service variant (`src/Dispatcher.ts`, `src/Tracker.ts`,
  `src/Middleware.ts`, plus a Queue module wrapping the effect library's
  `Queue.bounded` / `Queue.dropping` / `Queue.sliding`);
* a vanilla-promise variant (`createTracker`, function middleware, a
  dispatch built on `Promise.allSettled`).

Values stored in event metadata and payloads are opaque (`unknown` in the
source), so the embedding is parametric in the value type `V`.  JavaScript
side effects (middleware `tap` callbacks) are embedded by threading an
explicit effect log.  Records (`Record<string, unknown>`) are embedded as
association lists observed through a first-match lookup; JavaScript object
spread `{...a, ...b}` is embedded by `spreadMerge`, whose lookup lets `b`
win on key collisions.
-/

namespace Trashlytics

/-- `QueueStrategy` from `config.ts`: `"bounded" | "dropping" | "sliding"`. -/
inductive QueueStrategy where
  | bounded
  | dropping
  | sliding
  deriving DecidableEq, Repr

/-- First-match lookup in an association list, the observable of a
JavaScript record. -/
def recLookup {V : Type} (k : String) : List (String × V) → Option V
  | [] => none
  | p :: rest => if p.1 = k then some p.2 else recLookup k rest

/-- JavaScript object spread `{...a, ...b}`: every key of `b` wins over the
same key in `a`; keys only in `a` keep `a`'s value. -/
def spreadMerge {V : Type} (a b : List (String × V)) : List (String × V) :=
  a.filter (fun p => (recLookup p.1 b).isNone) ++ b

/-- `Event` from `event.ts`: id, name, timestamp, payload, metadata. -/
structure Event (V : Type) where
  id : String
  name : String
  timestamp : Nat
  payload : V
  metadata : List (String × V)
  deriving DecidableEq, Repr

/-- `EventOptions` from `event.ts`. -/
structure EventOptions (V : Type) where
  id : String
  metadata : Option (List (String × V))
  timestamp : Option Nat
  deriving DecidableEq, Repr

/-- `createEvent` from `event.ts`: `timestamp: options.timestamp ?? Date.now()`
(`now` is the sampled clock), `metadata: options.metadata ?? {}`. -/
def createEvent {V : Type} (name : String) (payload : V) (options : EventOptions V)
    (now : Nat) : Event V :=
  { id := options.id
    name := name
    timestamp := options.timestamp.getD now
    payload := payload
    metadata := options.metadata.getD [] }

/-- The tracker-side event builder (`createEvent` inside `Tracker.ts` `make`,
and the same pattern in `createTracker`'s `trackWith`): the options carry a
fresh id and `metadata: { ...globalMetadata, ...extraMetadata }`. -/
def trackerCreateEvent {V : Type} (globalMetadata : List (String × V)) (genId : String)
    (now : Nat) (name : String) (payload : V)
    (extraMetadata : Option (List (String × V))) : Event V :=
  createEvent name payload
    { id := genId
      metadata := some (spreadMerge globalMetadata (extraMetadata.getD []))
      timestamp := none }
    now

/-- The bounded queue backing the Queue module: buffer (head = oldest),
capacity and admission strategy, as built by `createQueue`. -/
structure EQueue (α : Type) where
  items : List α
  capacity : Nat
  strategy : QueueStrategy
  deriving DecidableEq, Repr

/-- Semantics of the effect library's `Queue.offer` on the queue returned by
`createQueue`, restricted to its non-suspending completions: `none` means the
call suspends (`bounded` strategy at capacity); otherwise the new queue state
and the boolean the library returns (`true` if the value was enqueued,
`false` if a `dropping` queue at capacity discarded it; a `sliding` queue at
capacity evicts its oldest element and accepts the value). -/
def queueOffer {α : Type} (q : EQueue α) (a : α) : Option (EQueue α × Bool) :=
  if q.items.length < q.capacity then
    some ({ q with items := q.items ++ [a] }, true)
  else
    match q.strategy with
    | .bounded => none
    | .dropping => some (q, false)
    | .sliding => some ({ q with items := q.items.tail ++ [a] }, true)

/-- `offer` from the Queue module: `Queue.offer(queue, event).pipe(
Effect.map(() => true), Effect.catchAll(() => Effect.succeed(false)))`.
The error channel is `never`, so `catchAll` never fires; every completed
`Queue.offer`, whatever boolean it produced, is mapped to `true`. -/
def offer {α : Type} (q : EQueue α) (a : α) : Option (EQueue α × Bool) :=
  (queueOffer q a).map (fun r => (r.1, true))

/-- `takeAll` from the Queue module: drains the queue, returning everything
currently buffered in FIFO order. -/
def takeAll {α : Type} (q : EQueue α) : List α × EQueue α :=
  (q.items, { q with items := [] })

/-- Concrete events for closed evaluations. -/
def evA : Event Int :=
  { id := "idA", name := "A", timestamp := 0, payload := 0, metadata := [] }

/-- A second concrete event, distinct from `evA`. -/
def evB : Event Int :=
  { id := "idB", name := "B", timestamp := 1, payload := 1, metadata := [] }

/-- A capacity-1 `dropping` queue already holding `evA`. -/
def fullDroppingQ : EQueue (Event Int) :=
  { items := [evA], capacity := 1, strategy := .dropping }

/-- A capacity-1 `sliding` queue already holding `evA`. -/
def fullSlidingQ : EQueue (Event Int) :=
  { items := [evA], capacity := 1, strategy := .sliding }

/-- C1: with the `dropping` strategy at capacity 1, offering `evA` into the
empty queue succeeds with `true`; a further `offer` of `evB` leaves the
buffer holding only `evA` (the new event is discarded, as the claim states)
but completes with `true`, not the claimed `false`: the Queue module's
`offer` pipes the library result through `Effect.map(() => true)`,
discarding the `false` that the underlying dropping queue reports. -/
theorem offer_dropping_full_returns_true :
    offer { items := [], capacity := 1, strategy := .dropping } evA
      = some (fullDroppingQ, true)
    ∧ offer fullDroppingQ evB = some (fullDroppingQ, true)
    ∧ queueOffer fullDroppingQ evB = some (fullDroppingQ, false) := by
  refine ⟨rfl, rfl, rfl⟩

/-- C7: with the `sliding` strategy, an `offer` into a non-full queue appends
the event and returns `true`, and an `offer` into a full queue evicts the
oldest buffered event, appends the new one, and returns `true`. -/
theorem offer_sliding_evicts {α : Type} (q : EQueue α) (a : α) :
    (q.items.length < q.capacity →
      offer q a = some ({ q with items := q.items ++ [a] }, true))
    ∧ (q.strategy = .sliding → q.capacity ≤ q.items.length →
      offer q a = some ({ q with items := q.items.tail ++ [a] }, true)) := by
  constructor
  · intro h
    simp [offer, queueOffer, h]
  · intro hs h
    simp [offer, queueOffer, Nat.not_lt.mpr h, hs]

/-- C7 witness: capacity 1, sliding; offering `evA` then `evB` returns `true`
both times and leaves the queue holding only `evB`. -/
theorem offer_sliding_evicts_witness :
    offer { items := [], capacity := 1, strategy := .sliding } evA
      = some (fullSlidingQ, true)
    ∧ offer fullSlidingQ evB
      = some ({ items := [evB], capacity := 1, strategy := .sliding }, true) := by
  constructor
  · exact (offer_sliding_evicts
      { items := [], capacity := 1, strategy := .sliding } evA).1 (by decide)
  · exact (offer_sliding_evicts fullSlidingQ evB).2 rfl (by decide)

/-!
Middleware (`middleware.ts` function variant; `Middleware.ts` carries the
same semantics over `Effect`/`Option`).  A unit maps an event to the
transformed event or `null` (here `Option`).  JavaScript side effects of
`tap` callbacks are embedded by threading an explicit log of marks.
-/

/-- A middleware unit: event in, transformed event or drop out, threading
the side-effect log. -/
def MW (V : Type) : Type := Event V → List String → Option (Event V) × List String

/-- `identity` middleware: passes the event through unchanged. -/
def identityMW {V : Type} : MW V := fun e log => (some e, log)

/-- `filter(predicate)`: the event survives iff the predicate holds. -/
def filterMW {V : Type} (p : Event V → Bool) : MW V :=
  fun e log => (if p e then some e else none, log)

/-- `tap(fn)`: runs the callback for its side effect and passes the event
through; the callback's effect is recorded as `mark` on the log. -/
def tapMW {V : Type} (mark : String) : MW V :=
  fun e log => (some e, log ++ [mark])

/-- `addMetadata(metadata)`: merges static keys into the event's metadata,
new keys winning (`{ ...event.metadata, ...metadata }`). -/
def addMetadataMW {V : Type} (metadata : List (String × V)) : MW V :=
  fun e log => (some { e with metadata := spreadMerge e.metadata metadata }, log)

/-- The loop body of `compose`: `current` starts as the incoming event; each
iteration returns `null` immediately when `current` is `null`, otherwise
applies the next unit. -/
def composeGo {V : Type} : List (MW V) → Option (Event V) → List String →
    Option (Event V) × List String
  | _, none, log => (none, log)
  | [], some e, log => (some e, log)
  | mw :: rest, some e, log =>
    let r := mw e log
    composeGo rest r.1 r.2

/-- `compose(...middlewares)`: applies the units left to right with the
early-`null` loop; composing zero units behaves as `identity`. -/
def compose {V : Type} (mws : List (MW V)) : MW V :=
  fun e log => composeGo mws (some e) log

/-- Decomposition of the compose loop over concatenation: the suffix runs on
whatever state the prefix produced. -/
theorem composeGo_append {V : Type} (l1 l2 : List (MW V)) (cur : Option (Event V))
    (log : List String) :
    composeGo (l1 ++ l2) cur log
      = composeGo l2 (composeGo l1 cur log).1 (composeGo l1 cur log).2 := by
  induction l1 generalizing cur log with
  | nil =>
    cases cur with
    | none => simp [composeGo]
    | some e => simp [composeGo]
  | cons mw rest ih =>
    cases cur with
    | none => simp [composeGo]
    | some e => simp [composeGo, ih]

/-- Once the current event is `none`, the loop invokes no further unit. -/
theorem composeGo_none {V : Type} (l : List (MW V)) (log : List String) :
    composeGo l none log = (none, log) := by
  cases l <;> rfl

/-- The event-processing step of `track` (`createTracker` variant): run the
middleware; when it returns `null` the event is discarded, otherwise it is
offered to the queue (the `offer` suspends for no strategy handled here, so
a suspending completion leaves the queue unchanged). -/
def processEvent {V : Type} (mw : MW V) (e : Event V) (q : EQueue (Event V))
    (log : List String) : EQueue (Event V) × List String :=
  let r := mw e log
  match r.1 with
  | none => (q, r.2)
  | some e2 => ((((queueOffer q e2).map (fun p => p.1)).getD q), r.2)

/-- C6: middleware composition short-circuits on drop.  (a) For any split of
a chain, if the prefix already signals drop then the whole chain signals
drop with exactly the prefix's side effects — no later unit runs.  (b) In
particular `compose [filter p, tap mark]` on an event failing `p` yields
drop and an unchanged log: the tap callback is never invoked.  (c) Such an
event is never offered to the queue: `processEvent` leaves it unchanged. -/
theorem compose_short_circuit {V : Type} (p : Event V → Bool) (mark : String)
    (e : Event V) (log : List String) (q : EQueue (Event V)) (hp : p e = false) :
    (∀ (mws1 mws2 : List (MW V)) (e' : Event V) (log' : List String),
      (compose mws1 e' log').1 = none →
        compose (mws1 ++ mws2) e' log' = (none, (compose mws1 e' log').2))
    ∧ compose [filterMW p, tapMW mark] e log = (none, log)
    ∧ processEvent (compose [filterMW p, tapMW mark]) e q log = (q, log) := by
  have hdrop : compose [filterMW p, tapMW mark] e log = (none, log) := by
    simp [compose, composeGo, filterMW, hp]
  refine ⟨?_, hdrop, ?_⟩
  · intro mws1 mws2 e' log' h
    have := composeGo_append mws1 mws2 (some e') log'
    simp only [compose] at h ⊢
    rw [this, h, composeGo_none]
  · simp [processEvent, hdrop]

/-- C6 witness: a concrete event failing a concrete predicate, composed
ahead of a tap: the chain drops, the tap mark is never logged, and the
queue is untouched. -/
theorem compose_short_circuit_witness :
    (fun ev => ev.payload > 0 : Event Int → Bool) evA = false
    ∧ compose [filterMW (fun ev => ev.payload > 0), tapMW "mark"] evA [] = (none, [])
    ∧ processEvent (compose [filterMW (fun ev => ev.payload > 0), tapMW "mark"]) evA
        fullDroppingQ [] = (fullDroppingQ, []) := by
  have h := compose_short_circuit (V := Int) (fun ev => ev.payload > 0) "mark"
    evA [] fullDroppingQ (by decide)
  exact ⟨by decide, h.2.1, h.2.2⟩

/-!
Dispatcher (`Dispatcher.ts`).  A transport's `send` is embedded as the
outcome it produces on each attempt index (`none` = success, `some e` =
failure with `e`).  `Effect.retry` with the `while: err.retryable`
predicate over `Schedule.exponential(...).pipe(jittered,
compose(recurs(retryAttempts)))` re-executes the send while the error is
retryable and the `recurs` budget is not exhausted; the backoff delays do
not affect which attempts run, only when, so the embedding tracks the
attempt count and the final outcome.
-/

/-- `TransportError` from `Transport.ts`. -/
structure TransportError where
  transport : String
  reason : String
  retryable : Bool
  deriving DecidableEq, Repr

/-- A transport/destination: its name and the outcome of `send(batch)` on
each successive attempt for the batch under dispatch. -/
structure Transport where
  name : String
  send : Nat → Option TransportError

/-- `transport.send(events).pipe(Effect.retry({schedule, while: err.retryable}))`
with `schedule` allowing `budget` retries: attempt `k`; on a retryable
failure with budget left, retry, else stop.  Returns the number of `send`
invocations and the final outcome. -/
def sendWithRetry (send : Nat → Option TransportError) : Nat → Nat →
    Nat × Option TransportError
  | budget, k =>
    match send k with
    | none => (1, none)
    | some e =>
      if e.retryable then
        match budget with
        | 0 => (1, some e)
        | b + 1 =>
          let r := sendWithRetry send b (k + 1)
          (r.1 + 1, r.2)
      else (1, some e)

/-- `DispatchResult` from `Dispatcher.ts`: per-transport success, or failure
carrying the final `TransportError`. -/
inductive DispatchResult where
  | ok (transport : String)
  | failed (transport : String) (error : TransportError)
  deriving DecidableEq, Repr

/-- `!r.success` from `handleResults`. -/
def DispatchResult.isFailure : DispatchResult → Bool
  | .ok _ => false
  | .failed _ _ => true

/-- The `transport` field of a `DispatchResult`. -/
def DispatchResult.transportOf : DispatchResult → String
  | .ok n => n
  | .failed n _ => n

/-- The failure contribution of one result: one `(transport, error)` entry
when it failed, nothing when it succeeded. -/
def DispatchResult.failureEntry : DispatchResult → List (String × TransportError)
  | .ok _ => []
  | .failed n e => [(n, e)]

/-- The final error of a result, when it failed. -/
def DispatchResult.finalError : DispatchResult → Option TransportError
  | .ok _ => none
  | .failed _ e => some e

/-- `sendToTransport`: run the retried send and match the outcome into a
`DispatchResult`; the attempt count is kept alongside. -/
def sendToTransport (t : Transport) (retryAttempts : Nat) : Nat × DispatchResult :=
  match sendWithRetry t.send retryAttempts 0 with
  | (c, none) => (c, .ok t.name)
  | (c, some e) => (c, .failed t.name e)

/-- `results.filter((r) => !r.success)` from `handleResults`, keeping each
failure's transport name and error in result order. -/
def failuresOf (results : List DispatchResult) : List (String × TransportError) :=
  results.filterMap (fun r =>
    match r with
    | .ok _ => none
    | .failed n e => some (n, e))

/-- `handleResults`: invokes `onError(failure.error, events)` for every
failure in order (first component: the list of those invocations), then
fails with `failures[0].error` exactly when a first failure exists and
`failures.length === results.length`, else succeeds (second component). -/
def handleResults {V : Type} (results : List DispatchResult) (events : List (Event V)) :
    List (TransportError × List (Event V)) × Option TransportError :=
  let failures := failuresOf results
  (failures.map (fun f => (f.2, events)),
    match failures with
    | [] => none
    | f :: _ => if failures.length = results.length then some f.2 else none)

/-- `dispatch` from the dispatcher built by `make`: an empty batch succeeds
without contacting any transport; otherwise every transport runs
`sendToTransport` (collected in `transports` order by `Effect.forEach`) and
the results go through `handleResults`.  The first component records each
transport's attempt count and result; the second is `handleResults`'s
onError-invocation list and outcome. -/
def dispatch {V : Type} (transports : List Transport) (retryAttempts : Nat)
    (events : List (Event V)) :
    List (Nat × DispatchResult)
      × (List (TransportError × List (Event V)) × Option TransportError) :=
  if events.length = 0 then ([], ([], none))
  else
    (transports.map (fun t => sendToTransport t retryAttempts),
      handleResults (transports.map (fun t => (sendToTransport t retryAttempts).2)) events)

/-- A send that always fails with a retryable error is attempted once per
unit of budget plus the initial attempt, and the final outcome is that
error. -/
theorem sendWithRetry_always_retryable (send : Nat → Option TransportError)
    (e : TransportError) (hsend : ∀ k, send k = some e) (hr : e.retryable = true) :
    ∀ budget k0, sendWithRetry send budget k0 = (budget + 1, some e) := by
  intro budget
  induction budget with
  | zero => intro k0; simp [sendWithRetry, hsend, hr]
  | succ b ih => intro k0; simp [sendWithRetry, hsend, hr, ih (k0 + 1)]

/-- A first attempt failing non-retryably stops immediately. -/
theorem sendWithRetry_nonretryable (send : Nat → Option TransportError)
    (e : TransportError) (budget k0 : Nat) (hsend : send k0 = some e)
    (hr : e.retryable = false) :
    sendWithRetry send budget k0 = (1, some e) := by
  cases budget <;> simp [sendWithRetry, hsend, hr]

/-- C2: for a non-empty batch, `dispatch` runs `sendToTransport` once per
registered transport; a transport whose send always fails with a retryable
error has its send invoked exactly `1 + retryAttempts` times before its
failure is recorded, and one failing non-retryably is invoked exactly
once. -/
theorem dispatch_retry_counts {V : Type} (transports : List Transport) (n : Nat)
    (events : List (Event V)) (t : Transport) (e : TransportError)
    (hne : events ≠ []) (hsend : ∀ k, t.send k = some e) :
    (dispatch transports n events).1 = transports.map (fun tr => sendToTransport tr n)
    ∧ (e.retryable = true →
        sendToTransport t n = (1 + n, .failed t.name e))
    ∧ (e.retryable = false →
        sendToTransport t n = (1, .failed t.name e)) := by
  refine ⟨?_, ?_, ?_⟩
  · have h0 : events.length ≠ 0 := fun h => hne (List.length_eq_zero.mp h)
    simp [dispatch, h0]
  · intro hr
    have := sendWithRetry_always_retryable t.send e hsend hr n 0
    simp [sendToTransport, this, Nat.add_comm]
  · intro hr
    have := sendWithRetry_nonretryable t.send e n 0 (hsend 0) hr
    simp [sendToTransport, this]

/-- A retryable error used by concrete transports. -/
def errRetry : TransportError := { transport := "t1", reason := "boom", retryable := true }

/-- A non-retryable error used by concrete transports. -/
def errFatal : TransportError := { transport := "t2", reason := "fatal", retryable := false }

/-- A transport that always fails retryably. -/
def tAlwaysRetry : Transport := { name := "t1", send := fun _ => some errRetry }

/-- A transport that always fails non-retryably. -/
def tAlwaysFatal : Transport := { name := "t2", send := fun _ => some errFatal }

/-- A transport that always succeeds. -/
def tAlwaysOk : Transport := { name := "t3", send := fun _ => none }

/-- C2 witness: with `retryAttempts = 3` and a batch of one event, the
always-retryably-failing transport is attempted `1 + 3` times and the
always-fatally-failing one exactly once. -/
theorem dispatch_retry_counts_witness :
    sendToTransport tAlwaysRetry 3 = (1 + 3, .failed "t1" errRetry)
    ∧ sendToTransport tAlwaysFatal 3 = (1, .failed "t2" errFatal) := by
  constructor
  · exact (dispatch_retry_counts (V := Int) [tAlwaysRetry] 3 [evA] tAlwaysRetry errRetry
      (by simp) (fun _ => rfl)).2.1 rfl
  · exact (dispatch_retry_counts (V := Int) [tAlwaysFatal] 3 [evA] tAlwaysFatal errFatal
      (by simp) (fun _ => rfl)).2.2 rfl

/-- All failure entries of a result list, in order, prefixed by one
result's contribution. -/
theorem failuresOf_cons (r : DispatchResult) (rs : List DispatchResult) :
    failuresOf (r :: rs) = r.failureEntry ++ failuresOf rs := by
  cases r <;> simp [failuresOf, DispatchResult.failureEntry]

/-- The failures list has the length of the results list exactly when every
result is a failure. -/
theorem failuresOf_length_eq_iff (rs : List DispatchResult) :
    (failuresOf rs).length = rs.length ↔ ∀ r ∈ rs, r.isFailure = true := by
  induction rs with
  | nil => simp [failuresOf]
  | cons r rest ih =>
    have hle : (failuresOf rest).length ≤ rest.length := by
      simpa [failuresOf] using List.length_filterMap_le _ rest
    cases r with
    | ok nm =>
      simp only [failuresOf_cons, DispatchResult.failureEntry, List.nil_append,
        List.length_cons, List.mem_cons]
      constructor
      · intro h; omega
      · intro h
        have := h (.ok nm) (Or.inl rfl)
        simp [DispatchResult.isFailure] at this
    | failed nm e =>
      simp only [failuresOf_cons, DispatchResult.failureEntry, List.singleton_append,
        List.length_cons, List.mem_cons, Nat.add_right_cancel_iff, ih]
      constructor
      · intro h r hr
        cases hr with
        | inl hh => subst hh; rfl
        | inr hh => exact h r hh
      · intro h r hr; exact h r (Or.inr hr)

/-- C3 counterexample: with no registered destination and a non-empty batch,
"every registered destination ultimately failed" holds vacuously, yet
`dispatch` succeeds — the stated equivalence fails at this input. -/
theorem dispatch_fails_iff_counterexample :
    ¬ (((dispatch ([] : List Transport) 3 [evA]).2.2).isSome
        ↔ ∀ t ∈ ([] : List Transport), (sendToTransport t 3).2.isFailure = true) := by
  simp [dispatch, handleResults, failuresOf]

/-- For a non-empty results list, `handleResults` fails exactly when every
result is a failure. -/
theorem handleResults_isSome_iff {V : Type} (rs : List DispatchResult)
    (events : List (Event V)) (hne : rs ≠ []) :
    ((handleResults rs events).2).isSome = true ↔ ∀ r ∈ rs, r.isFailure = true := by
  have hlen := failuresOf_length_eq_iff rs
  simp only [handleResults]
  rcases hf : failuresOf rs with _ | ⟨f, rest⟩
  · rw [hf] at hlen
    simp only [Option.isSome_none, Bool.false_eq_true, false_iff]
    intro hall
    have h0 : (0 : Nat) = rs.length := by simpa using hlen.mpr hall
    exact hne (List.length_eq_zero.mp h0.symm)
  · rw [hf] at hlen
    by_cases hc : (f :: rest).length = rs.length
    · simp only [if_pos hc, Option.isSome_some, true_iff]
      exact hlen.mp hc
    · simp only [if_neg hc, Option.isSome_none, Bool.false_eq_true, false_iff]
      intro hall
      exact hc (hlen.mpr hall)

/-- C3 (amended with at least one registered destination): for a non-empty
batch, `dispatch` surfaces a `TransportError` iff every registered
destination ultimately failed after its retries; and whenever at least one
destination succeeded, the dispatch outcome is success. -/
theorem dispatch_fails_iff_all_fail {V : Type} (transports : List Transport) (n : Nat)
    (events : List (Event V)) (hne : events ≠ []) (hts : transports ≠ []) :
    (((dispatch transports n events).2.2).isSome = true
      ↔ ∀ t ∈ transports, (sendToTransport t n).2.isFailure = true)
    ∧ ((∃ t ∈ transports, (sendToTransport t n).2.isFailure = false) →
        (dispatch transports n events).2.2 = none) := by
  have h0 : ¬ events.length = 0 := fun h => hne (List.length_eq_zero.mp h)
  have hdisp : (dispatch transports n events).2.2
      = (handleResults (transports.map (fun t => (sendToTransport t n).2)) events).2 := by
    simp [dispatch, h0]
  have hrs_ne : transports.map (fun t => (sendToTransport t n).2) ≠ [] := by
    intro hnil
    exact hts (List.map_eq_nil_iff.mp hnil)
  have hiff : (((dispatch transports n events).2.2).isSome = true
      ↔ ∀ t ∈ transports, (sendToTransport t n).2.isFailure = true) := by
    rw [hdisp, handleResults_isSome_iff _ _ hrs_ne]
    constructor
    · intro h t ht
      exact h _ (List.mem_map_of_mem _ ht)
    · intro h r hr
      obtain ⟨t, ht, rfl⟩ := List.mem_map.mp hr
      exact h t ht
  refine ⟨hiff, ?_⟩
  intro hex
  rcases hex with ⟨t, ht, hok⟩
  rcases hval : (dispatch transports n events).2.2 with _ | e
  · rfl
  · exfalso
    have hsome : ((dispatch transports n events).2.2).isSome = true := by
      rw [hval]; rfl
    have := hiff.mp hsome t ht
    rw [hok] at this
    exact Bool.false_ne_true this

/-- C3 witness: one succeeding and one failing destination — the outcome is
success; two failing destinations — the outcome is a failure, matching the
all-failed test. -/
theorem dispatch_fails_iff_all_fail_witness :
    (((dispatch [tAlwaysFatal, tAlwaysOk] 3 [evA]).2.2).isSome
      ↔ ∀ t ∈ [tAlwaysFatal, tAlwaysOk], (sendToTransport t 3).2.isFailure = true)
    ∧ (dispatch [tAlwaysFatal, tAlwaysOk] 3 [evA]).2.2 = none := by
  have h := dispatch_fails_iff_all_fail (V := Int) [tAlwaysFatal, tAlwaysOk] 3 [evA]
    (by simp) (by simp)
  refine ⟨h.1, h.2 ⟨tAlwaysOk, by simp, ?_⟩⟩
  simp [sendToTransport, sendWithRetry, tAlwaysOk, DispatchResult.isFailure]

/-- The `DispatchResult` produced for a transport carries that transport's
name. -/
theorem sendToTransport_transportOf (t : Transport) (n : Nat) :
    ((sendToTransport t n).2).transportOf = t.name := by
  cases hr : sendWithRetry t.send n 0 with
  | mk c r => cases r <;> simp [sendToTransport, hr, DispatchResult.transportOf]

/-- A result whose transport name differs contributes nothing to a
name-filtered failures list. -/
theorem failureEntry_filter_ne (r : DispatchResult) (nm : String)
    (h : r.transportOf ≠ nm) :
    r.failureEntry.filter (fun f => f.1 == nm) = [] := by
  cases r with
  | ok n2 => rfl
  | failed n2 e =>
    simp only [DispatchResult.transportOf] at h
    have hb : (n2 == nm) = false := beq_eq_false_iff_ne.mpr h
    simp [DispatchResult.failureEntry, List.filter, hb]

/-- A result's own failure contribution survives filtering by its own
transport name. -/
theorem failureEntry_filter_self (r : DispatchResult) :
    r.failureEntry.filter (fun f => f.1 == r.transportOf) = r.failureEntry := by
  cases r <;> simp [DispatchResult.failureEntry, DispatchResult.transportOf, List.filter]

/-- A name not registered among the transports matches no failure entry. -/
theorem failuresOf_filter_not_mem (rest : List Transport) (n : Nat) (nm : String)
    (h : nm ∉ rest.map (fun tr => tr.name)) :
    (failuresOf (rest.map (fun tr => (sendToTransport tr n).2))).filter
      (fun f => f.1 == nm) = [] := by
  induction rest with
  | nil => rfl
  | cons tr rs ih =>
    simp only [List.map_cons, failuresOf_cons, List.filter_append]
    have hname : ((sendToTransport tr n).2).transportOf ≠ nm := by
      rw [sendToTransport_transportOf]
      intro hh
      exact h (by simp [hh])
    have h2 : nm ∉ rs.map (fun tr => tr.name) := by
      intro hh
      exact h (by simp [hh])
    rw [failureEntry_filter_ne _ _ hname, ih h2]
    rfl

/-- With pairwise-distinct transport names, the failure entries attributable
to transport `t` are exactly `t`'s own contribution: one entry with `t`'s
final error when `t` ultimately failed, none when it succeeded. -/
theorem failuresOf_filter_of_mem (transports : List Transport) (n : Nat) (t : Transport)
    (hnodup : (transports.map (fun tr => tr.name)).Nodup) (ht : t ∈ transports) :
    (failuresOf (transports.map (fun tr => (sendToTransport tr n).2))).filter
      (fun f => f.1 == t.name) = ((sendToTransport t n).2).failureEntry := by
  induction transports with
  | nil => cases ht
  | cons tr rest ih =>
    simp only [List.map_cons, List.nodup_cons] at hnodup
    obtain ⟨hhead, htail⟩ := hnodup
    simp only [List.map_cons, failuresOf_cons, List.filter_append]
    rcases List.mem_cons.mp ht with rfl | hmem
    · have hself : ((sendToTransport t n).2).failureEntry.filter
          (fun f => f.1 == t.name) = ((sendToTransport t n).2).failureEntry := by
        rw [← sendToTransport_transportOf t n]
        exact failureEntry_filter_self _
      rw [hself, failuresOf_filter_not_mem rest n t.name hhead, List.append_nil]
    · have hname : ((sendToTransport tr n).2).transportOf ≠ t.name := by
        rw [sendToTransport_transportOf]
        intro hh
        exact hhead (hh ▸ List.mem_map_of_mem (fun tr2 => tr2.name) hmem)
      rw [failureEntry_filter_ne _ _ hname, List.nil_append]
      exact ih htail hmem

/-- C9: for a non-empty batch, the `onError` invocations of a dispatch are
exactly one `(final error, batch)` call per failed result, in result order —
this list is produced before and independently of the aggregate outcome —
and, with pairwise-distinct transport names, destination `t` accounts for
exactly one failure entry (carrying its final `TransportError`) when it
ultimately failed and none when it succeeded. -/
theorem dispatch_onError_per_destination {V : Type} (transports : List Transport)
    (n : Nat) (events : List (Event V)) (t : Transport)
    (hne : events ≠ []) (hnodup : (transports.map (fun tr => tr.name)).Nodup)
    (ht : t ∈ transports) :
    (dispatch transports n events).2.1
      = (failuresOf (transports.map (fun tr => (sendToTransport tr n).2))).map
          (fun f => (f.2, events))
    ∧ (failuresOf (transports.map (fun tr => (sendToTransport tr n).2))).filter
        (fun f => f.1 == t.name)
      = ((sendToTransport t n).2).failureEntry := by
  have h0 : ¬ events.length = 0 := fun h => hne (List.length_eq_zero.mp h)
  exact ⟨by simp [dispatch, h0, handleResults],
    failuresOf_filter_of_mem transports n t hnodup ht⟩

/-- C9 witness: one destination failing non-retryably and one succeeding:
`onError` fires exactly once, for the failing destination, with its error
and the batch, while the overall outcome is success. -/
theorem dispatch_onError_per_destination_witness :
    (dispatch [tAlwaysFatal, tAlwaysOk] 3 [evA]).2.1 = [(errFatal, [evA])]
    ∧ (failuresOf ([tAlwaysFatal, tAlwaysOk].map (fun tr => (sendToTransport tr 3).2))).filter
        (fun f => f.1 == tAlwaysFatal.name) = [("t2", errFatal)]
    ∧ (dispatch [tAlwaysFatal, tAlwaysOk] 3 [evA]).2.2 = none := by
  have h := dispatch_onError_per_destination (V := Int) [tAlwaysFatal, tAlwaysOk] 3 [evA]
    tAlwaysFatal (by simp) (by decide) (List.mem_cons_self _ _)
  refine ⟨by rw [h.1]; rfl, by rw [h.2]; rfl, by rfl⟩

/-- When every result of a non-empty results list failed, `handleResults`
surfaces the first result's final error. -/
theorem handleResults_all_fail {V : Type} (r0 : DispatchResult)
    (rs : List DispatchResult) (events : List (Event V))
    (hall : ∀ r ∈ r0 :: rs, r.isFailure = true) :
    (handleResults (r0 :: rs) events).2 = r0.finalError := by
  have hlen := (failuresOf_length_eq_iff (r0 :: rs)).mpr hall
  cases r0 with
  | ok nm =>
    have := hall _ (List.mem_cons_self _ _)
    simp [DispatchResult.isFailure] at this
  | failed nm e =>
    rw [failuresOf_cons] at hlen
    simp only [DispatchResult.failureEntry, List.singleton_append, List.length_cons] at hlen
    simp only [handleResults, failuresOf_cons, DispatchResult.failureEntry,
      List.singleton_append, DispatchResult.finalError]
    rw [if_pos (by simpa using hlen)]

/-- C10: for a non-empty batch, when every registered destination ultimately
fails, the error `dispatch` surfaces is exactly the final error of the first
destination in registration order. -/
theorem dispatch_allfail_first_error {V : Type} (t0 : Transport)
    (rest : List Transport) (n : Nat) (events : List (Event V))
    (hne : events ≠ [])
    (hall : ∀ t ∈ t0 :: rest, (sendToTransport t n).2.isFailure = true) :
    (dispatch (t0 :: rest) n events).2.2 = ((sendToTransport t0 n).2).finalError := by
  have h0 : ¬ events.length = 0 := fun h => hne (List.length_eq_zero.mp h)
  have hrsall : ∀ r ∈ (sendToTransport t0 n).2 ::
      rest.map (fun tr => (sendToTransport tr n).2), r.isFailure = true := by
    intro r hr
    rcases List.mem_cons.mp hr with rfl | hm
    · exact hall t0 (List.mem_cons_self _ _)
    · obtain ⟨t, htm, rfl⟩ := List.mem_map.mp hm
      exact hall t (List.mem_cons_of_mem _ htm)
  simp only [dispatch, if_neg h0, List.map_cons]
  exact handleResults_all_fail _ _ _ hrsall

/-- C10 witness: two always-failing destinations with different errors — the
surfaced error is the first destination's, not the second's. -/
theorem dispatch_allfail_first_error_witness :
    (dispatch [tAlwaysRetry, tAlwaysFatal] 3 [evA]).2.2 = some errRetry
    ∧ errRetry ≠ errFatal := by
  have h := dispatch_allfail_first_error (V := Int) tAlwaysRetry [tAlwaysFatal] 3 [evA]
    (by simp) (by decide)
  exact ⟨by rw [h]; rfl, by decide⟩

/-!
Tracker (`tracker.ts`, `createTracker` variant; `Tracker.ts` builds events
with the same `{ ...globalMetadata, ...extraMetadata }` merge).  The vanilla
tracker holds two mutable cells, `runtime` (lazily created) and
`isShutdown`; `ensureRuntime` throws once `isShutdown` is set, and
`shutdown` is guarded by the same flag.
-/

/-- Lookup through a spread merge: the right-hand record wins on every key
it binds; other keys fall back to the left-hand record. -/
theorem recLookup_spreadMerge {V : Type} (a b : List (String × V)) (k : String) :
    recLookup k (spreadMerge a b) = (recLookup k b).or (recLookup k a) := by
  induction a with
  | nil =>
    simp only [spreadMerge, List.filter_nil, List.nil_append, recLookup]
    cases recLookup k b <;> rfl
  | cons p rest ih =>
    cases hgb : recLookup p.1 b with
    | none =>
      have hm : spreadMerge (p :: rest) b = p :: spreadMerge rest b := by
        simp [spreadMerge, List.filter, hgb]
      rw [hm]
      by_cases hpk : p.1 = k
      · subst hpk
        simp [recLookup, hgb, Option.or]
      · simp [recLookup, hpk, ih]
    | some v =>
      have hm : spreadMerge (p :: rest) b = spreadMerge rest b := by
        simp [spreadMerge, List.filter, hgb]
      rw [hm, ih]
      by_cases hpk : p.1 = k
      · subst hpk
        simp [recLookup, hgb, Option.or]
      · simp [recLookup, hpk]

/-- C5: the event built by `trackWith(name, payload, extraMetadata)` carries
metadata `{ ...staticMetadata, ...extraMetadata }`: on every key,
`extraMetadata` wins when it binds the key and `staticMetadata` supplies
the value otherwise. -/
theorem trackWith_metadata_merge {V : Type} (globalMetadata extraMetadata : List (String × V))
    (genId : String) (now : Nat) (name : String) (payload : V) (k : String) :
    (trackerCreateEvent globalMetadata genId now name payload (some extraMetadata)).metadata
      = spreadMerge globalMetadata extraMetadata
    ∧ recLookup k (trackerCreateEvent globalMetadata genId now name payload
        (some extraMetadata)).metadata
      = (recLookup k extraMetadata).or (recLookup k globalMetadata) := by
  refine ⟨rfl, ?_⟩
  show recLookup k (spreadMerge globalMetadata extraMetadata) = _
  exact recLookup_spreadMerge globalMetadata extraMetadata k

/-- C5 witness: staticMetadata `{a:0, b:2}` and extraMetadata `{a:1}` yield
event metadata with `a = 1` and `b = 2`. -/
theorem trackWith_metadata_merge_witness :
    recLookup "a" (trackerCreateEvent [("a", (0 : Int)), ("b", 2)] "id" 5 "evt" (3 : Int)
      (some [("a", 1)])).metadata = some 1
    ∧ recLookup "b" (trackerCreateEvent [("a", (0 : Int)), ("b", 2)] "id" 5 "evt" (3 : Int)
      (some [("a", 1)])).metadata = some 2 := by
  have ha := (trackWith_metadata_merge [("a", (0 : Int)), ("b", 2)] [("a", 1)]
    "id" 5 "evt" 3 "a").2
  have hb := (trackWith_metadata_merge [("a", (0 : Int)), ("b", 2)] [("a", 1)]
    "id" 5 "evt" 3 "b").2
  exact ⟨by rw [ha]; rfl, by rw [hb]; rfl⟩

/-- The internal runtime owned by a tracker: its event queue (the background
fiber and scope are identified by the actions recorded at shutdown). -/
structure VRuntime (V : Type) where
  queue : EQueue (Event V)
  deriving DecidableEq, Repr

/-- The vanilla tracker's mutable state: the `isShutdown` flag and the
lazily created runtime. -/
structure VTracker (V : Type) where
  isShutdown : Bool
  runtime : Option (VRuntime V)
  deriving DecidableEq, Repr

/-- The resolved configuration fields the embedded tracker operations
consult. -/
structure VConfig (V : Type) where
  queueCapacity : Nat
  queueStrategy : QueueStrategy
  metadata : List (String × V)

/-- `createRuntime`: a fresh queue per the resolved configuration. -/
def createRuntime {V : Type} (cfg : VConfig V) : VRuntime V :=
  { queue := { items := [], capacity := cfg.queueCapacity, strategy := cfg.queueStrategy } }

/-- `ensureRuntime`: throws `"Tracker has been shut down"` once the flag is
set; otherwise returns the runtime, creating it on first use. -/
def ensureRuntime {V : Type} (cfg : VConfig V) (s : VTracker V) :
    Except String (VRuntime V × VTracker V) :=
  if s.isShutdown then .error "Tracker has been shut down"
  else
    match s.runtime with
    | some rt => .ok (rt, s)
    | none =>
      let rt := createRuntime cfg
      .ok (rt, { s with runtime := some rt })

/-- `track(name, payload)`: `ensureRuntime`, build the event with the global
metadata, run the middleware, and offer a surviving event to the queue
(fire-and-forget; a suspending completion leaves the queue unchanged). -/
def track {V : Type} (cfg : VConfig V) (mw : MW V) (genId : String) (now : Nat)
    (name : String) (payload : V) (s : VTracker V) (log : List String) :
    Except String (VTracker V × List String) :=
  match ensureRuntime cfg s with
  | .error msg => .error msg
  | .ok (rt, s2) =>
    let event := createEvent name payload
      { id := genId, metadata := some cfg.metadata, timestamp := none } now
    let r := mw event log
    match r.1 with
    | none => .ok (s2, r.2)
    | some e2 =>
      let q2 := ((queueOffer rt.queue e2).map (fun p => p.1)).getD rt.queue
      .ok ({ s2 with runtime := some { rt with queue := q2 } }, r.2)

/-- C4: on a tracker whose shutdown has completed (`isShutdown` set),
`track` throws the usage error for every name and payload instead of
enqueueing or silently dropping the event. -/
theorem track_after_shutdown_throws {V : Type} (cfg : VConfig V) (mw : MW V)
    (genId : String) (now : Nat) (name : String) (payload : V)
    (s : VTracker V) (log : List String) (h : s.isShutdown = true) :
    track cfg mw genId now name payload s log
      = .error "Tracker has been shut down" := by
  simp [track, ensureRuntime, h]

/-- C4 witness: a concrete shut-down tracker rejects a concrete `track`
call with the usage error. -/
theorem track_after_shutdown_throws_witness :
    ({ isShutdown := true, runtime := none } : VTracker Int).isShutdown = true
    ∧ track ⟨1, .dropping, []⟩ identityMW "id" 0 "evt" (0 : Int)
        { isShutdown := true, runtime := none } []
      = .error "Tracker has been shut down" :=
  ⟨rfl, track_after_shutdown_throws _ _ _ _ _ _ _ _ rfl⟩

/-- The externally observable steps a shutdown performs. -/
inductive Action (V : Type) where
  | interruptLoop
  | drainQueue
  | dispatchBatch (events : List (Event V))
  | closeScope
  deriving DecidableEq, Repr

/-- `runtime.shutdown()`: interrupt the batch fiber, drain the queue
(`takeAll`), dispatch the drained events when there are any, close the
scope. -/
def runtimeShutdown {V : Type} (rt : VRuntime V) : List (Action V) :=
  let drained := takeAll rt.queue
  [Action.interruptLoop, Action.drainQueue]
    ++ (if drained.1.length > 0 then [Action.dispatchBatch drained.1] else [])
    ++ [Action.closeScope]

/-- `shutdown()` on the tracker: returns at once when `isShutdown` is
already set; otherwise sets the flag, runs the runtime's shutdown when a
runtime exists, and clears the runtime. -/
def shutdown {V : Type} (s : VTracker V) : VTracker V × List (Action V) :=
  if s.isShutdown then (s, [])
  else
    ({ isShutdown := true, runtime := none },
      match s.runtime with
      | none => []
      | some rt => runtimeShutdown rt)

/-- C8: a second `shutdown` performs no action at all and leaves the state
fixed, so three sequential calls perform exactly the actions of the first —
in particular no loop interruption, queue drain, or dispatch recurs, and no
event is delivered more than once across the repeated calls. -/
theorem shutdown_idempotent {V : Type} (s : VTracker V) :
    shutdown (shutdown s).1 = ((shutdown s).1, [])
    ∧ (shutdown s).2 ++ (shutdown (shutdown s).1).2
        ++ (shutdown (shutdown (shutdown s).1).1).2 = (shutdown s).2 := by
  have h1 : (shutdown s).1.isShutdown = true := by
    by_cases h : s.isShutdown = true <;> simp [shutdown, h]
  have hgen : ∀ t : VTracker V, t.isShutdown = true → shutdown t = (t, []) := by
    intro t ht
    simp [shutdown, ht]
  have h2 : shutdown (shutdown s).1 = ((shutdown s).1, []) := hgen _ h1
  refine ⟨h2, ?_⟩
  simp [h2]

end Trashlytics
